import Mathlib

/-!
Verification of the session/state layer of the Urho3D-Toolbox scene editor
(`src/Editor/Editor.cpp`, `src/Editor/SceneTab.h`).

The embedding follows the source: `Editor.cpp` provides the session
registry, project persistence and the per-frame orchestration loop;
`SceneTab.h` declares the scene session type.  The identifier pool
(`IDPool.h`) and the scene-tab implementation (`SceneTab.cpp`) are not part
of the given sources; where their behaviour matters it is modelled from the
specification, and each such definition says so in its doc comment.

Identifiers are modelled as natural numbers (the source uses `StringHash`
values), strings as `String`, and the imgui window key derived from a tab
title plus its identifier as a `String × Nat` pair.
-/

/-- Modelled from the spec: the identifier pool of `IDPool.h` (not under
src/).  State is the set of currently issued identifiers, kept as a list. -/
structure IDPool where
  held : List Nat
deriving DecidableEq

/-- Modelled from the spec: `allocate` returns an identifier not currently
held (here: one greater than the maximum held identifier) and marks it
held.  Any deterministic collision-free scheme satisfies the contract. -/
def IDPool.NewID (p : IDPool) : Nat × IDPool :=
  let i := (p.held.foldr max 0) + 1
  (i, ⟨i :: p.held⟩)

/-- Modelled from the spec: `reserve` claims a specific identifier coming
from persisted data; fails when the identifier is already held. -/
def IDPool.TakeID (p : IDPool) (i : Nat) : Bool × IDPool :=
  if i ∈ p.held then (false, p) else (true, ⟨i :: p.held⟩)

/-- Modelled from the spec: `reclaim` frees a held identifier, reporting
whether it was held. -/
def IDPool.ReclaimID (p : IDPool) (i : Nat) : Bool × IDPool :=
  if i ∈ p.held then (true, ⟨p.held.erase i⟩) else (false, p)

/-- Modelled from the spec: `clear` releases all held identifiers; called
at the start of every project load. -/
def IDPool.Clear (_ : IDPool) : IDPool := ⟨[]⟩

/-- Initial docking slot of a scene tab (`ui::Slot_Right` for the first
tab, `ui::Slot_Tab` for the following ones), from `Editor::CreateNewScene`. -/
inductive DockSlot where
  | right
  | tab
deriving DecidableEq

/-- A scene session ("scene tab"), after `SceneTab.h`: stable identifier,
display title (default "Scene"), last used resource path, per-frame
active/rendered flags, and the docking placement hints passed to the
constructor.  The derived unique window key (title plus identifier) is
`SceneTab.uniqueTitle` below. -/
structure SceneTab where
  id : Nat
  title : String
  path : String
  isActive : Bool
  isRendered : Bool
  placeAfter : Option (String × Nat)
  placePosition : DockSlot
deriving DecidableEq

/-- Modelled from the spec: the unique window key of a tab, the display
title with the identifier appended (`SceneTab::GetUniqueTitle`, implemented
in the missing `SceneTab.cpp`); kept structured as a pair so that distinct
identifiers give distinct keys, exactly the collision-freedom the derived
title exists to provide. -/
def SceneTab.uniqueTitle (t : SceneTab) : String × Nat := (t.title, t.id)

/-- The scene object owned by a tab; one scene per session, identified here
by the owning session (`SceneTab::GetScene`). -/
def SceneTab.GetScene (t : SceneTab) : Nat := t.id

/-- One persisted per-session block of the project document.  Modelled from
the spec: `SceneTab::SaveProject`/`SceneTab::LoadProject` (missing
`SceneTab.cpp`) write and read the identifier, title and file path. -/
structure SceneData where
  id : Nat
  title : String
  path : String
deriving DecidableEq

/-- The project document written by `Editor::SaveProject`: window geometry
(width, height, x, y) and the ordered per-session blocks.  The dock-layout
blob is opaque to this layer and not modelled. -/
structure ProjectDoc where
  window : Nat × Nat × Int × Int
  scenes : List SceneData
deriving DecidableEq

/-- Editor state, after the `Editor` class: ordered session registry
`sceneTabs_`, the identifier pool `idPool_`, the weak active-tab handle
`activeTab_` (as the identifier it was last assigned), the current project
file path, window geometry, and a count of reported identity conflicts
(the source logs them via `URHO3D_LOGERRORF`). -/
structure Editor where
  sceneTabs : List SceneTab
  idPool : IDPool
  activeTab : Option Nat
  projectFilePath : String
  windowGeom : Nat × Nat × Int × Int
  conflicts : Nat
deriving DecidableEq

/-- Initial editor state at startup: empty registry, empty pool, no active
tab, no project path. -/
def Editor.init : Editor :=
  { sceneTabs := [], idPool := ⟨[]⟩, activeTab := none, projectFilePath := ""
    windowGeom := (1920, 1080, 0, 0), conflicts := 0 }

/-- `Editor::CreateNewScene(XMLElement project)`: with no project data a
fresh identifier is allocated; with project data the tab fields come from
the persisted block and the persisted identifier must be reserved via
`IDPool.TakeID` — on reservation failure an error is reported and no tab is
pushed.  Placement: first tab docks right of the Hierarchy anchor (`none`),
later tabs dock as tab siblings of the current back tab. -/
def Editor.CreateNewScene (e : Editor) (project : Option SceneData) :
    Option SceneTab × Editor :=
  let place : Option (String × Nat) × DockSlot :=
    match e.sceneTabs.getLast? with
    | none => (none, DockSlot.right)
    | some b => (some b.uniqueTitle, DockSlot.tab)
  match project with
  | none =>
    let r := e.idPool.NewID
    let tab : SceneTab :=
      { id := r.1, title := "Scene", path := "", isActive := false
        isRendered := false, placeAfter := place.1, placePosition := place.2 }
    (some tab, { e with idPool := r.2, sceneTabs := e.sceneTabs ++ [tab] })
  | some s =>
    let tab : SceneTab :=
      { id := s.id, title := s.title, path := s.path, isActive := false
        isRendered := false, placeAfter := place.1, placePosition := place.2 }
    let r := e.idPool.TakeID tab.id
    if r.1 then
      (some tab, { e with idPool := r.2, sceneTabs := e.sceneTabs ++ [tab] })
    else
      (none, { e with conflicts := e.conflicts + 1 })

/-- The persisted block of one tab (`SceneTab::SaveProject`; modelled from
the spec for the missing `SceneTab.cpp`: identifier, title, file path). -/
def SceneTab.toSceneData (t : SceneTab) : SceneData :=
  { id := t.id, title := t.title, path := t.path }

/-- The project document `Editor::SaveProject` builds from the current
state: window geometry plus one block per tab, in registry order. -/
def Editor.projectDocOf (e : Editor) : ProjectDoc :=
  { window := e.windowGeom, scenes := e.sceneTabs.map SceneTab.toSceneData }

/-- `Editor::SaveProject(filePath)`: empty path is a silent no-op producing
no document; otherwise the document is built from the current state and
written (the write itself is I/O outside this layer; the produced document
is returned).  The editor state is unchanged in both cases. -/
def Editor.SaveProject (e : Editor) (filePath : String) :
    Option ProjectDoc × Editor :=
  if filePath = "" then (none, e)
  else (some e.projectDocOf, e)

/-- The successful branch of `Editor::LoadProject`: clear the identifier
pool, restore window geometry, clear the registry, then restore each
persisted session in document order through `CreateNewScene`; a failed
reservation skips only that session. -/
def Editor.LoadProjectDoc (e : Editor) (d : ProjectDoc) : Editor :=
  let base : Editor :=
    { e with idPool := e.idPool.Clear, windowGeom := d.window, sceneTabs := [] }
  d.scenes.foldl (fun acc s => (acc.CreateNewScene (some s)).2) base

/-- `Editor::LoadProject(filePath)`: empty path returns immediately; the
file is resolved through the resource cache or read from disk, collapsed
here into the oracle `fs` — a missing, unreadable or rootless document
(`fs path = none`) is a silent no-op leaving all state untouched. -/
def Editor.LoadProject (e : Editor) (fs : String → Option ProjectDoc)
    (filePath : String) : Editor :=
  if filePath = "" then e
  else
    match fs filePath with
    | none => e
    | some d => e.LoadProjectDoc d

/-- Per-frame host report for one tab.  Modelled from the spec:
`SceneTab::RenderWindow` (missing `SceneTab.cpp`) returns false exactly
when the host reports the panel dismissed, and refreshes the rendered and
focused flags for the frame. -/
structure FrameInput where
  stayOpen : Bool
  rendered : Bool
  focused : Bool
deriving DecidableEq

/-- Flag refresh performed by `RenderWindow` on a surviving tab. -/
def updateFlags (host : Nat → FrameInput) (t : SceneTab) : SceneTab :=
  { t with isRendered := (host t.id).rendered, isActive := (host t.id).focused }

/-- One activation-arbitration step of the `Editor::OnUpdate` loop, on a
tab that stayed open, with flags already refreshed: a rendered tab takes
the active slot if it is focused and some tab already claimed priority, or
if no tab has claimed priority yet (in which case priority becomes this
tab's focus state).  Returns the new active handle and priority flag. -/
def arbStep (rwa : Bool) (active : Option Nat) (t : SceneTab) :
    Option Nat × Bool :=
  if t.isRendered then
    if rwa && t.isActive then (some t.id, rwa)
    else if !rwa then (some t.id, t.isActive)
    else (active, rwa)
  else (active, rwa)

/-- The registry loop of `Editor::OnUpdate` (lines 193-215): for each tab
in order call `RenderWindow`; a dismissed tab is erased — its destructor
returns its identifier to the pool (modelled from the spec; `SceneTab.cpp`
is missing) — and a surviving tab runs activation arbitration.  Returns
the surviving tabs, the active handle and the pool. -/
def runFrameLoop (host : Nat → FrameInput) :
    List SceneTab → Bool → Option Nat → IDPool →
    List SceneTab × Option Nat × IDPool
  | [], _, active, pool => ([], active, pool)
  | t :: rest, rwa, active, pool =>
    if (host t.id).stayOpen then
      let t' := updateFlags host t
      let a := arbStep rwa active t'
      let r := runFrameLoop host rest a.2 a.1 pool
      (t' :: r.1, r.2)
    else
      runFrameLoop host rest rwa active (pool.ReclaimID t.id).2

/-- The per-frame registry step (`runFrame` of the spec): the loop of
`Editor::OnUpdate` applied to the editor state. -/
def Editor.runFrame (e : Editor) (host : Nat → FrameInput) : Editor :=
  let r := runFrameLoop host e.sceneTabs false e.activeTab e.idPool
  { e with sceneTabs := r.1, activeTab := r.2.1, idPool := r.2.2 }

/-- The liveness-checked dereference of the weak active-tab handle.
Modelled from the spec: the engine weak pointer (external `Ptr.h`) is a
weak handle plus liveness test; the handle is live when it was assigned an
identifier still present in the registry. -/
def Editor.liveActive (e : Editor) : Option SceneTab :=
  match e.activeTab with
  | none => none
  | some i => e.sceneTabs.find? (fun t => t.id == i)

/-- The expiry test on the weak active-tab handle (`activeTab_.Expired()`). -/
def Editor.Expired (e : Editor) : Bool := e.liveActive.isNone

/-- The session, if any, chosen by the last arbitration pass
(`activeSession` of the spec). -/
def Editor.activeSession (e : Editor) : Option SceneTab := e.liveActive

/-- Hierarchy panel content (`Editor::OnUpdate` lines 186-191): rendered
from the active tab only when the handle has not expired. -/
def Editor.hierarchyContent (e : Editor) : Option SceneTab :=
  if e.Expired then none else e.liveActive

/-- Inspector panel content (`Editor::OnUpdate` lines 218-225): rendered
from the active tab only when the handle has not expired. -/
def Editor.inspectorContent (e : Editor) : Option SceneTab :=
  if e.Expired then none else e.liveActive

/-- Toolbar section (`Editor::RenderMenuBar` lines 274-284): the save
button and gizmo controls of the active tab appear only when the handle
has not expired. -/
def Editor.toolbarContent (e : Editor) : Option SceneTab :=
  if e.Expired then none else e.liveActive

/-- `Editor::IsActive(Scene*)`: false for a null scene or a null active
handle, otherwise compares the active tab scene and focus state.  The
handle test is modelled from the spec as the weak-handle liveness test. -/
def Editor.IsActive (e : Editor) (scene : Option Nat) : Bool :=
  match scene, e.liveActive with
  | none, _ => false
  | _, none => false
  | some s, some t => t.GetScene == s && t.isActive

/-- UI oracle for one `Editor::RenderMenuBar` call: which menu items were
clicked, the paths produced by the open and save file dialogs, and the
toolbar save button state. -/
structure MenuInput where
  saveClicked : Bool
  saveAsClicked : Bool
  openClicked : Bool
  openDialogPath : String
  newSceneClicked : Bool
  toolbarSaveClicked : Bool
  saveDialogPath : String
deriving DecidableEq

/-- Observable effects of one `Editor::RenderMenuBar` call: the
identifiers of the tabs whose `SaveScene` was invoked, and the project
document written, if any. -/
structure MenuEffects where
  savedScenes : List Nat
  wroteDoc : Option ProjectDoc
deriving DecidableEq

/-- `Editor::RenderMenuBar`: the File menu (save, save-as clearing the
project path, open running `LoadProject`, new scene), then the toolbar
save button (present only when the active handle has not expired); when a
save was requested, an empty project path is filled from the save dialog,
the project is written, and `SaveScene` runs on every tab in the
registry. -/
def Editor.RenderMenuBar (e : Editor) (fs : String → Option ProjectDoc)
    (inp : MenuInput) : Editor × MenuEffects :=
  let save0 := inp.saveClicked
  let p1 : Bool × Editor :=
    if inp.saveAsClicked then (true, { e with projectFilePath := "" })
    else (save0, e)
  let e2 :=
    if inp.openClicked then
      ({ p1.2 with projectFilePath := inp.openDialogPath }).LoadProject
        fs inp.openDialogPath
    else p1.2
  let e3 := if inp.newSceneClicked then (e2.CreateNewScene none).2 else e2
  let save2 := p1.1 || (!e3.Expired && inp.toolbarSaveClicked)
  if save2 then
    let e4 :=
      if e3.projectFilePath = "" then
        { e3 with projectFilePath := inp.saveDialogPath }
      else e3
    let r := e4.SaveProject e4.projectFilePath
    (r.2, { savedScenes := r.2.sceneTabs.map SceneTab.id, wroteDoc := r.1 })
  else
    (e3, { savedScenes := [], wroteDoc := none })

/-- Opening a scene-typed resource from the resource browser
(`Editor::OnUpdate` lines 230-237): `CreateNewScene()->LoadScene(selected)`
— a fresh tab is created and its cached path set to the selected
resource. -/
def Editor.browserOpenScene (e : Editor) (p : String) : Editor :=
  let r := e.CreateNewScene none
  match r.1 with
  | some t =>
    { r.2 with sceneTabs := r.2.sceneTabs.dropLast ++ [{ t with path := p }] }
  | none => r.2

/-- One whole `Editor::OnUpdate` frame: menu bar (which may load, create
and save), then the registry loop, then the resource browser (which may
open a scene).  The hierarchy and inspector panels render content but do
not mutate this state. -/
def Editor.OnUpdate (e : Editor) (fs : String → Option ProjectDoc)
    (inp : MenuInput) (host : Nat → FrameInput)
    (browserSel : Option String) : Editor :=
  let e1 := (e.RenderMenuBar fs inp).1
  let e2 := e1.runFrame host
  match browserSel with
  | some p => e2.browserOpenScene p
  | none => e2

/-- The fixed default project path loaded by `Editor::Start`. -/
def defaultProjectPath : String := "Etc/DefaultEditorProject.xml"

/-- Modelled from the spec: `SceneTab::ClearCachedPaths` (missing
`SceneTab.cpp`) clears the cached resource path so the next save prompts
for a file name. -/
def SceneTab.ClearCachedPaths (t : SceneTab) : SceneTab := { t with path := "" }

/-- The session-layer tail of `Editor::Start` (lines 100-102): load the
default project, then unconditionally dereference the front of the session
list (`sceneTabs_.Front()->ClearCachedPaths()`).  The dereference of the
front of an empty list is out of bounds; the model returns `none` there. -/
def Editor.Start (fs : String → Option ProjectDoc) (e : Editor) :
    Option Editor :=
  let e1 := e.LoadProject fs defaultProjectPath
  match e1.sceneTabs with
  | [] => none
  | t :: rest => some { e1 with sceneTabs := t.ClearCachedPaths :: rest }

/-- One call against the identifier pool, for stating the uniqueness
invariant over arbitrary call sequences. -/
inductive PoolOp where
  | alloc : PoolOp
  | reclaim : Nat → PoolOp
  | reserve : Nat → PoolOp
  | clear : PoolOp

/-- Apply one pool call, discarding the returned value. -/
def applyPoolOp (p : IDPool) : PoolOp → IDPool
  | PoolOp.alloc => (p.NewID).2
  | PoolOp.reclaim i => (p.ReclaimID i).2
  | PoolOp.reserve i => (p.TakeID i).2
  | PoolOp.clear => p.Clear

/-- Run a sequence of pool calls from the empty pool. -/
def applyPoolOps (ops : List PoolOp) : IDPool :=
  ops.foldl applyPoolOp ⟨[]⟩

/-- One editor-level operation: a direct session creation, a whole UI
frame, a project load, or a project save. -/
inductive EditorOp where
  | create : Option SceneData → EditorOp
  | frame : (String → Option ProjectDoc) → MenuInput → (Nat → FrameInput) →
      Option String → EditorOp
  | loadOp : (String → Option ProjectDoc) → String → EditorOp
  | saveOp : String → EditorOp

/-- Apply one editor-level operation. -/
def applyEditorOp (e : Editor) : EditorOp → Editor
  | EditorOp.create p => (e.CreateNewScene p).2
  | EditorOp.frame fs inp host sel => e.OnUpdate fs inp host sel
  | EditorOp.loadOp fs path => e.LoadProject fs path
  | EditorOp.saveOp path => (e.SaveProject path).2

/-- Run a sequence of editor-level operations from the initial state. -/
def runEditorOps (ops : List EditorOp) : Editor :=
  ops.foldl applyEditorOp Editor.init

/-- Concrete editor whose single session is active and then dismissed. -/
def c10Tab : SceneTab :=
  { id := 1, title := "Scene", path := "", isActive := true
    isRendered := true, placeAfter := none, placePosition := DockSlot.right }

/-- Editor state holding `c10Tab` with the weak handle pointing at it. -/
def c10Editor : Editor :=
  { sceneTabs := [c10Tab], idPool := ⟨[1]⟩, activeTab := some 1
    projectFilePath := "", windowGeom := (1920, 1080, 0, 0), conflicts := 0 }

/-- Host report dismissing every tab. -/
def c10Host : Nat → FrameInput :=
  fun _ => { stayOpen := false, rendered := false, focused := false }

/-- A tab that stays open this frame and is reported rendered and
focused by the host. -/
def focusedPred (host : Nat → FrameInput) (t : SceneTab) : Bool :=
  (host t.id).stayOpen && (host t.id).rendered && (host t.id).focused

/-- First concrete tab for the C1 scenarios. -/
def c1Tab1 : SceneTab :=
  { id := 1, title := "Scene", path := "", isActive := false
    isRendered := false, placeAfter := none, placePosition := DockSlot.right }

/-- Second concrete tab for the C1 scenarios. -/
def c1Tab2 : SceneTab :=
  { id := 2, title := "Scene", path := "", isActive := false
    isRendered := false, placeAfter := some ("Scene", 1)
    placePosition := DockSlot.tab }

/-- Third concrete tab for the C1 scenarios. -/
def c1Tab3 : SceneTab :=
  { id := 3, title := "Scene", path := "", isActive := false
    isRendered := false, placeAfter := some ("Scene", 2)
    placePosition := DockSlot.tab }

/-- Registry holding the two concrete tabs. -/
def c1Editor : Editor :=
  { sceneTabs := [c1Tab1, c1Tab2], idPool := ⟨[1, 2]⟩, activeTab := none
    projectFilePath := "", windowGeom := (1920, 1080, 0, 0), conflicts := 0 }

/-- Host report keeping every tab open, rendered and focused. -/
def c1Host : Nat → FrameInput :=
  fun _ => { stayOpen := true, rendered := true, focused := true }

/-- Registry of three tabs for the C1 witness, with only the middle one
focused. -/
def c1wEditor : Editor :=
  { sceneTabs := [c1Tab1, c1Tab2, c1Tab3], idPool := ⟨[1, 2, 3]⟩
    activeTab := none, projectFilePath := ""
    windowGeom := (1920, 1080, 0, 0), conflicts := 0 }

/-- Host report where only the session with id 2 is focused. -/
def c1wHost : Nat → FrameInput :=
  fun i =>
    if i == 2 then { stayOpen := true, rendered := true, focused := true }
    else { stayOpen := true, rendered := true, focused := false }

/-- Tabs for the C5 witness. -/
def c5Editor : Editor :=
  { sceneTabs := [c1Tab1, c1Tab2, c1Tab3], idPool := ⟨[1, 2, 3]⟩
    activeTab := none, projectFilePath := ""
    windowGeom := (1920, 1080, 0, 0), conflicts := 0 }

/-- Host report dismissing only the middle session (id 2). -/
def c5Host : Nat → FrameInput :=
  fun i =>
    if i == 2 then { stayOpen := false, rendered := false, focused := false }
    else { stayOpen := true, rendered := true, focused := false }

/-- First tab of the C3 witness registry (duplicate display title). -/
def c3Tab1 : SceneTab :=
  { id := 1, title := "Scene", path := "Scenes/A.xml", isActive := true
    isRendered := true, placeAfter := none, placePosition := DockSlot.right }

/-- Second tab of the C3 witness registry (duplicate display title). -/
def c3Tab2 : SceneTab :=
  { id := 2, title := "Scene", path := "", isActive := false
    isRendered := false, placeAfter := some ("Scene", 1)
    placePosition := DockSlot.tab }

/-- C3 witness registry: two sessions both titled "Scene". -/
def c3Editor : Editor :=
  { sceneTabs := [c3Tab1, c3Tab2], idPool := ⟨[1, 2]⟩, activeTab := some 1
    projectFilePath := "Project.xml", windowGeom := (1280, 720, 10, 20)
    conflicts := 0 }

/-- File oracle serving the saved document of `c3Editor`. -/
def c3Fs : String → Option ProjectDoc :=
  fun p => if p == "Project.xml" then some c3Editor.projectDocOf else none

/-- File oracle for the C9 witness: no project file exists. -/
def c9FsNone : String → Option ProjectDoc := fun _ => none

/-- File oracle for the C9 witness: the default project restores one
session. -/
def c9FsOne : String → Option ProjectDoc :=
  fun p =>
    if p == defaultProjectPath then
      some ⟨(1920, 1080, 0, 0), [⟨1, "Scene", "Scenes/A.xml"⟩]⟩
    else none

/-- Registry with two live sessions, the first being active, for the C6
scenarios. -/
def c6Editor : Editor :=
  { sceneTabs := [c1Tab1, c1Tab2], idPool := ⟨[1, 2]⟩, activeTab := some 1
    projectFilePath := "Project.xml", windowGeom := (1920, 1080, 0, 0)
    conflicts := 0 }

/-- UI input firing only the toolbar save button. -/
def c6Input : MenuInput :=
  { saveClicked := false, saveAsClicked := false, openClicked := false
    openDialogPath := "", newSceneClicked := false
    toolbarSaveClicked := true, saveDialogPath := "" }

/-- File oracle for the C6 scenarios (never consulted). -/
def c6Fs : String → Option ProjectDoc := fun _ => none

/-- UI input firing the Save Project menu item. -/
def c6wInput : MenuInput :=
  { saveClicked := true, saveAsClicked := false, openClicked := false
    openDialogPath := "", newSceneClicked := false
    toolbarSaveClicked := false, saveDialogPath := "Out.xml" }

/-- The registry/pool consistency invariant: session identifiers are
pairwise distinct, held identifiers are pairwise distinct, and every live
session identifier is held by the pool. -/
def EditorInv (e : Editor) : Prop :=
  (e.sceneTabs.map SceneTab.id).Nodup ∧ e.idPool.held.Nodup ∧
  ∀ i ∈ e.sceneTabs.map SceneTab.id, i ∈ e.idPool.held

/-! ## Identifier pool lemmas -/

lemma mem_le_foldr_max (l : List Nat) (x : Nat) (hx : x ∈ l) :
    x ≤ l.foldr max 0 := by
  induction l with
  | nil => cases hx
  | cons a t ih =>
    rcases List.mem_cons.mp hx with h | h
    · subst h; exact le_max_left _ _
    · exact le_trans (ih h) (le_max_right _ _)

lemma IDPool.NewID_fst (p : IDPool) : p.NewID.1 = (p.held.foldr max 0) + 1 :=
  rfl

lemma IDPool.NewID_held (p : IDPool) : p.NewID.2.held = p.NewID.1 :: p.held :=
  rfl

lemma IDPool.NewID_fresh (p : IDPool) : p.NewID.1 ∉ p.held := by
  intro h
  have h2 := mem_le_foldr_max p.held _ h
  rw [IDPool.NewID_fst] at h2
  omega

lemma applyPoolOp_nodup (p : IDPool) (op : PoolOp) (h : p.held.Nodup) :
    (applyPoolOp p op).held.Nodup := by
  cases op with
  | alloc =>
    rw [applyPoolOp, IDPool.NewID_held]
    exact List.nodup_cons.mpr ⟨p.NewID_fresh, h⟩
  | reclaim i =>
    rw [applyPoolOp, IDPool.ReclaimID]
    split
    · exact h.erase i
    · exact h
  | reserve i =>
    rw [applyPoolOp, IDPool.TakeID]
    split
    · exact h
    · next hni => exact List.nodup_cons.mpr ⟨hni, h⟩
  | clear => exact List.nodup_nil

lemma applyPoolOps_go_nodup (ops : List PoolOp) :
    ∀ p : IDPool, p.held.Nodup → (ops.foldl applyPoolOp p).held.Nodup := by
  induction ops with
  | nil => intro p h; exact h
  | cons op rest ih =>
    intro p h
    exact ih _ (applyPoolOp_nodup p op h)

/-! ## Weak-handle lemmas -/

lemma Editor.liveActive_of_activeTab_none (e : Editor)
    (h : e.activeTab = none) : e.liveActive = none := by
  rw [Editor.liveActive, h]

lemma Editor.IsActive_of_liveActive_none (e : Editor) (scene : Option Nat)
    (h : e.liveActive = none) : e.IsActive scene = false := by
  cases scene <;> simp [Editor.IsActive, h]

/-! ## C7: load failure atomicity -/

/-- C7: for every path naming a missing or unreadable project file,
`LoadProject` is a silent no-op leaving the whole editor state (identifier
pool, session registry, window geometry) unchanged; the same holds for an
empty path. -/
theorem c7_load_failure_noop (e : Editor) (fs : String → Option ProjectDoc)
    (path : String) (h : fs path = none) :
    e.LoadProject fs path = e ∧ e.LoadProject fs "" = e := by
  constructor
  · rw [Editor.LoadProject]
    split
    · rfl
    · rw [h]
  · rfl

/-- Witness for C7 at a concrete missing file. -/
theorem c7_witness :
    Editor.init.LoadProject (fun _ => none) "Etc/Missing.xml" = Editor.init ∧
    Editor.init.LoadProject (fun _ => none) "" = Editor.init :=
  c7_load_failure_noop Editor.init (fun _ => none) "Etc/Missing.xml" rfl

/-! ## C8: empty-path save no-op -/

/-- C8: `SaveProject ""` performs no write (produces no document) and
leaves the editor state — registry, identifier pool, every session —
unchanged. -/
theorem c8_empty_path_save_noop (e : Editor) :
    e.SaveProject "" = (none, e) := rfl

/-! ## C10: active-handle guard -/

/-- C10: every dereference of the weak active-session handle is guarded:
when the handle has expired (never set, or its session no longer in the
registry) the hierarchy panel, inspector panel and toolbar section render
nothing; and `IsActive` returns false whenever the scene is null or no
live active session exists. -/
theorem c10_active_handle_guard (e : Editor) (scene : Option Nat) :
    (e.Expired = true →
      e.hierarchyContent = none ∧ e.inspectorContent = none ∧
      e.toolbarContent = none ∧ e.IsActive scene = false) ∧
    e.IsActive none = false ∧
    (e.activeTab = none → e.IsActive scene = false) := by
  refine ⟨fun h => ?_, ?_, fun h => ?_⟩
  · have hl : e.liveActive = none := by
      have := h
      rw [Editor.Expired, Option.isNone_iff_eq_none] at this
      exact this
    refine ⟨?_, ?_, ?_, e.IsActive_of_liveActive_none scene hl⟩
    · rw [Editor.hierarchyContent, h]; rfl
    · rw [Editor.inspectorContent, h]; rfl
    · rw [Editor.toolbarContent, h]; rfl
  · rw [Editor.IsActive]
  · exact e.IsActive_of_liveActive_none scene
      (e.liveActive_of_activeTab_none h)

/-- Witness for C10: after `runFrame` erases the active session the handle
has expired, the three panels render nothing and `IsActive` reports
false. -/
theorem c10_witness :
    (c10Editor.runFrame c10Host).Expired = true ∧
    (c10Editor.runFrame c10Host).hierarchyContent = none ∧
    (c10Editor.runFrame c10Host).inspectorContent = none ∧
    (c10Editor.runFrame c10Host).toolbarContent = none ∧
    (c10Editor.runFrame c10Host).IsActive (some 1) = false ∧
    (c10Editor.runFrame c10Host).IsActive none = false := by
  have h := c10_active_handle_guard (c10Editor.runFrame c10Host) (some 1)
  have hexp : (c10Editor.runFrame c10Host).Expired = true := by decide
  have h1 := h.1 hexp
  exact ⟨hexp, h1.1, h1.2.1, h1.2.2.1, h1.2.2.2, h.2.1⟩

/-! ## Frame-loop lemmas -/

lemma updateFlags_id (host : Nat → FrameInput) (t : SceneTab) :
    (updateFlags host t).id = t.id := rfl

lemma arbStep_focused (rwa : Bool) (active : Option Nat) (t : SceneTab)
    (hr : t.isRendered = true) (hf : t.isActive = true) :
    arbStep rwa active t = (some t.id, true) := by
  cases rwa <;> simp [arbStep, hr, hf]

lemma arbStep_priority_kept (active : Option Nat) (t : SceneTab)
    (h : ¬(t.isRendered = true ∧ t.isActive = true)) :
    arbStep true active t = (active, true) := by
  by_cases hr : t.isRendered = true
  · have hf : t.isActive = false := by
      cases hfa : t.isActive
      · rfl
      · exact absurd ⟨hr, hfa⟩ h
    simp [arbStep, hr, hf]
  · simp [arbStep, Bool.eq_false_iff.mpr hr]

lemma runFrameLoop_tabs (host : Nat → FrameInput) :
    ∀ (tabs : List SceneTab) (rwa : Bool) (active : Option Nat)
      (pool : IDPool),
    (runFrameLoop host tabs rwa active pool).1 =
      tabs.filterMap (fun s =>
        if (host s.id).stayOpen then some (updateFlags host s) else none) := by
  intro tabs
  induction tabs with
  | nil => intro rwa active pool; rfl
  | cons t rest ih =>
    intro rwa active pool
    cases h : (host t.id).stayOpen <;>
      simp [runFrameLoop, h, ih, List.filterMap_cons]

lemma IDPool.ReclaimID_nodup (p : IDPool) (i : Nat) (h : p.held.Nodup) :
    (p.ReclaimID i).2.held.Nodup := by
  rw [IDPool.ReclaimID]
  split
  · exact h.erase i
  · exact h

lemma IDPool.mem_ReclaimID (p : IDPool) (i j : Nat) (h : p.held.Nodup) :
    j ∈ (p.ReclaimID i).2.held ↔ j ∈ p.held ∧ j ≠ i := by
  rw [IDPool.ReclaimID]
  split
  · next hmem =>
    simp only [h.mem_erase_iff]
    tauto
  · next hni =>
    constructor
    · intro hj
      exact ⟨hj, fun hji => hni (hji ▸ hj)⟩
    · intro hj
      exact hj.1

lemma runFrameLoop_held_nodup (host : Nat → FrameInput) :
    ∀ (tabs : List SceneTab) (rwa : Bool) (active : Option Nat)
      (pool : IDPool), pool.held.Nodup →
    (runFrameLoop host tabs rwa active pool).2.2.held.Nodup := by
  intro tabs
  induction tabs with
  | nil => intro rwa active pool h; exact h
  | cons t rest ih =>
    intro rwa active pool h
    cases hso : (host t.id).stayOpen
    · simp only [runFrameLoop, hso, Bool.false_eq_true, if_false]
      exact ih rwa active _ (pool.ReclaimID_nodup t.id h)
    · simp only [runFrameLoop, hso, if_true]
      exact ih _ _ pool h

lemma runFrameLoop_held_mem (host : Nat → FrameInput) :
    ∀ (tabs : List SceneTab) (rwa : Bool) (active : Option Nat)
      (pool : IDPool), pool.held.Nodup → ∀ i : Nat,
    (i ∈ (runFrameLoop host tabs rwa active pool).2.2.held ↔
      i ∈ pool.held ∧
        ∀ u ∈ tabs, (host u.id).stayOpen = false → u.id ≠ i) := by
  intro tabs
  induction tabs with
  | nil => intro rwa active pool h i; simp [runFrameLoop]
  | cons t rest ih =>
    intro rwa active pool h i
    cases hso : (host t.id).stayOpen
    · simp only [runFrameLoop, hso, Bool.false_eq_true, if_false]
      rw [ih rwa active _ (pool.ReclaimID_nodup t.id h) i]
      rw [pool.mem_ReclaimID t.id i h]
      constructor
      · rintro ⟨⟨hmem, hne⟩, hrest⟩
        refine ⟨hmem, ?_⟩
        intro u hu hcu
        rcases List.mem_cons.mp hu with rfl | hu
        · exact fun hui => hne (hui ▸ rfl)
        · exact hrest u hu hcu
      · rintro ⟨hmem, hall⟩
        refine ⟨⟨hmem, fun hit => hall t (List.mem_cons_self t rest) hso
          hit.symm⟩, ?_⟩
        · intro u hu hcu
          exact hall u (List.mem_cons_of_mem t hu) hcu
    · simp only [runFrameLoop, hso, if_true]
      rw [ih _ _ pool h i]
      constructor
      · rintro ⟨hmem, hrest⟩
        refine ⟨hmem, ?_⟩
        intro u hu hcu
        rcases List.mem_cons.mp hu with rfl | hu
        · rw [hcu] at hso; cases hso
        · exact hrest u hu hcu
      · rintro ⟨hmem, hall⟩
        exact ⟨hmem, fun u hu hcu => hall u (List.mem_cons_of_mem t hu) hcu⟩

lemma runFrameLoop_active_nofocus (host : Nat → FrameInput) :
    ∀ (tabs : List SceneTab) (active : Option Nat) (pool : IDPool),
    tabs.filter (focusedPred host) = [] →
    (runFrameLoop host tabs true active pool).2.1 = active := by
  intro tabs
  induction tabs with
  | nil => intro active pool _; rfl
  | cons t rest ih =>
    intro active pool hfil
    rw [List.filter_cons] at hfil
    have hfp : focusedPred host t = false := by
      cases hfp : focusedPred host t
      · rfl
      · rw [hfp] at hfil; simp at hfil
    have hrest : rest.filter (focusedPred host) = [] := by
      rw [hfp] at hfil; simpa using hfil
    cases hso : (host t.id).stayOpen
    · simp only [runFrameLoop, hso, Bool.false_eq_true, if_false]
      exact ih active _ hrest
    · simp only [runFrameLoop, hso, if_true]
      have hnf : ¬((updateFlags host t).isRendered = true ∧
          (updateFlags host t).isActive = true) := by
      -- focusedPred is false while the tab stayed open, so the refreshed
      -- flags cannot be simultaneously rendered and focused
        rintro ⟨hr, hf⟩
        rw [focusedPred, hso] at hfp
        rw [updateFlags] at hr hf
        simp at hr hf
        simp [hr, hf] at hfp
      rw [arbStep_priority_kept active _ hnf]
      exact ih active pool hrest

lemma runFrameLoop_active_last (host : Nat → FrameInput) :
    ∀ (tabs : List SceneTab) (t : SceneTab) (rwa : Bool)
      (active : Option Nat) (pool : IDPool),
    (tabs.filter (focusedPred host)).getLast? = some t →
    (runFrameLoop host tabs rwa active pool).2.1 = some t.id := by
  intro tabs
  induction tabs with
  | nil => intro t rwa active pool h; cases h
  | cons u rest ih =>
    intro t rwa active pool h
    rw [List.filter_cons] at h
    cases hfp : focusedPred host u
    · rw [hfp] at h
      simp only [Bool.false_eq_true, if_false] at h
      cases hso : (host u.id).stayOpen
      · simp only [runFrameLoop, hso, Bool.false_eq_true, if_false]
        exact ih t rwa active _ h
      · simp only [runFrameLoop, hso, if_true]
        exact ih t _ _ pool h
    · rw [hfp] at h
      simp only [if_true] at h
      have hso : (host u.id).stayOpen = true := by
        rw [focusedPred] at hfp
        exact (Bool.and_eq_true_iff.mp
          (Bool.and_eq_true_iff.mp hfp).1).1
      have hr : (host u.id).rendered = true := by
        rw [focusedPred] at hfp
        exact (Bool.and_eq_true_iff.mp
          (Bool.and_eq_true_iff.mp hfp).1).2
      have hf : (host u.id).focused = true := by
        rw [focusedPred] at hfp
        exact (Bool.and_eq_true_iff.mp hfp).2
      simp only [runFrameLoop, hso, if_true]
      rw [arbStep_focused _ _ (updateFlags host u) hr hf]
      cases hrest : rest.filter (focusedPred host) with
      | nil =>
        have ht : t = u := by
          rw [hrest] at h
          simpa using h.symm
        rw [runFrameLoop_active_nofocus host rest _ pool hrest]
        rw [ht, updateFlags_id]
      | cons x xs =>
        have h2 : (rest.filter (focusedPred host)).getLast? = some t := by
          rw [hrest]
          rw [hrest] at h
          rwa [List.getLast?_cons_cons] at h
        exact ih t _ _ pool h2

lemma find_survivor (host : Nat → FrameInput) :
    ∀ (tabs : List SceneTab) (t : SceneTab),
    t ∈ tabs → (host t.id).stayOpen = true →
    (tabs.map SceneTab.id).Nodup →
    (tabs.filterMap (fun s =>
        if (host s.id).stayOpen then some (updateFlags host s)
        else none)).find? (fun s => s.id == t.id) =
      some (updateFlags host t) := by
  intro tabs
  induction tabs with
  | nil => intro t hmem _ _; cases hmem
  | cons u rest ih =>
    intro t hmem hso hnd
    rw [List.map_cons, List.nodup_cons] at hnd
    rcases List.mem_cons.mp hmem with rfl | hmem
    · rw [List.filterMap_cons, hso]
      simp only [if_true]
      rw [List.find?_cons]
      simp [updateFlags_id]
    · have hne : u.id ≠ t.id := by
        intro he
        exact hnd.1 (he ▸ List.mem_map_of_mem SceneTab.id hmem)
      rw [List.filterMap_cons]
      cases huo : (host u.id).stayOpen
      · simp only [Bool.false_eq_true, if_false]
        exact ih t hmem hso hnd.2
      · simp only [if_true]
        rw [List.find?_cons]
        have : ((updateFlags host u).id == t.id) = false := by
          rw [updateFlags_id]
          exact decide_eq_false hne
        rw [this]
        exact ih t hmem hso hnd.2

/-! ## C1: activation arbitration -/

/-- Counterexample to C1 as stated: with two sessions both reporting UI
focus in the same frame, the session earliest in registry order (id 1)
does not become the active session; the loop lets the later focused
session (id 2) displace it. -/
theorem c1_counterexample :
    (c1Editor.runFrame c1Host).activeTab ≠ some 1 ∧
    (c1Editor.runFrame c1Host).activeTab = some 2 := by
  constructor
  · decide
  · decide

lemma getLast?_mem {α : Type} {l : List α} {x : α}
    (h : l.getLast? = some x) : x ∈ l := by
  have hx : x ∈ l.getLast? := Option.mem_def.mpr h
  obtain ⟨hne, heq⟩ := List.mem_getLast?_eq_getLast hx
  rw [heq]
  exact List.getLast_mem hne

/-- C1 as amended: among the sessions that stay open and are reported
rendered and focused this frame, the one latest in registry iteration
order becomes the active session after `runFrame`; in particular, when
exactly one session reports focus it becomes the active session. -/
theorem c1_activation_last_focused (e : Editor) (host : Nat → FrameInput)
    (t : SceneTab)
    (hlast : (e.sceneTabs.filter (focusedPred host)).getLast? = some t)
    (hnd : (e.sceneTabs.map SceneTab.id).Nodup) :
    (e.runFrame host).activeTab = some t.id ∧
    (e.runFrame host).activeSession = some (updateFlags host t) := by
  have hmem : t ∈ e.sceneTabs :=
    List.mem_of_mem_filter (getLast?_mem hlast)
  have hfp : focusedPred host t = true :=
    List.of_mem_filter (getLast?_mem hlast)
  have hso : (host t.id).stayOpen = true := by
    rw [focusedPred] at hfp
    exact (Bool.and_eq_true_iff.mp (Bool.and_eq_true_iff.mp hfp).1).1
  have hact : (e.runFrame host).activeTab = some t.id := by
    rw [Editor.runFrame]
    exact runFrameLoop_active_last host e.sceneTabs t false e.activeTab
      e.idPool hlast
  refine ⟨hact, ?_⟩
  rw [Editor.activeSession, Editor.liveActive, hact]
  show (e.runFrame host).sceneTabs.find? (fun s => s.id == t.id) =
    some (updateFlags host t)
  rw [Editor.runFrame]
  show (runFrameLoop host e.sceneTabs false e.activeTab e.idPool).1.find?
    (fun s => s.id == t.id) = some (updateFlags host t)
  rw [runFrameLoop_tabs]
  exact find_survivor host e.sceneTabs t hmem hso hnd

/-- Witness for the amended C1: among sessions A, B, C where exactly B
(id 2) reports focus, `runFrame` makes B the active session. -/
theorem c1_witness :
    (c1wEditor.runFrame c1wHost).activeTab = some c1Tab2.id ∧
    (c1wEditor.runFrame c1wHost).activeSession =
      some (updateFlags c1wHost c1Tab2) :=
  c1_activation_last_focused c1wEditor c1wHost c1Tab2 (by decide) (by decide)

/-! ## C5: removal semantics -/

/-- C5: a session whose `RenderWindow` reports it dismissed is erased from
the registry — it is absent from the registry seen by the next frame — its
identifier is returned to the pool and at once available again (a reserve
of it succeeds, so a subsequent allocate may reissue it), while every
surviving session keeps its original position: the surviving registry is
exactly the original sequence restricted to the open sessions, with
refreshed per-frame flags. -/
theorem c5_removal_semantics (e : Editor) (host : Nat → FrameInput)
    (t : SceneTab) (hmem : t ∈ e.sceneTabs)
    (hclosed : (host t.id).stayOpen = false)
    (hpool : e.idPool.held.Nodup) :
    t.id ∉ (e.runFrame host).sceneTabs.map SceneTab.id ∧
    t.id ∉ (e.runFrame host).idPool.held ∧
    ((e.runFrame host).idPool.TakeID t.id).1 = true ∧
    (e.runFrame host).sceneTabs =
      e.sceneTabs.filterMap (fun s =>
        if (host s.id).stayOpen then some (updateFlags host s) else none) := by
  have htabs : (e.runFrame host).sceneTabs =
      e.sceneTabs.filterMap (fun s =>
        if (host s.id).stayOpen then some (updateFlags host s) else none) := by
    rw [Editor.runFrame]
    exact runFrameLoop_tabs host e.sceneTabs false e.activeTab e.idPool
  have hheld : t.id ∉ (e.runFrame host).idPool.held := by
    rw [Editor.runFrame]
    intro hin
    have h := (runFrameLoop_held_mem host e.sceneTabs false e.activeTab
      e.idPool hpool t.id).mp hin
    exact h.2 t hmem hclosed rfl
  refine ⟨?_, hheld, ?_, htabs⟩
  · rw [htabs]
    intro hin
    rw [List.mem_map] at hin
    obtain ⟨s, hs, hsid⟩ := hin
    rw [List.mem_filterMap] at hs
    obtain ⟨u, hu, hif⟩ := hs
    by_cases huo : (host u.id).stayOpen = true
    · rw [if_pos huo] at hif
      have : s.id = u.id := by
        rw [← Option.some_inj.mp hif, updateFlags_id]
      rw [this] at hsid
      rw [hsid] at huo
      rw [huo] at hclosed
      cases hclosed
    · rw [if_neg huo] at hif
      cases hif
  · rw [IDPool.TakeID, if_neg hheld]

/-- Witness for C5: closing the middle of three sessions removes exactly
it, frees its identifier for reservation, and keeps the outer two in
order. -/
theorem c5_witness :
    (2 : Nat) ∉ (c5Editor.runFrame c5Host).sceneTabs.map SceneTab.id ∧
    (2 : Nat) ∉ (c5Editor.runFrame c5Host).idPool.held ∧
    ((c5Editor.runFrame c5Host).idPool.TakeID 2).1 = true ∧
    (c5Editor.runFrame c5Host).sceneTabs =
      c5Editor.sceneTabs.filterMap (fun s =>
        if (c5Host s.id).stayOpen then some (updateFlags c5Host s)
        else none) :=
  c5_removal_semantics c5Editor c5Host c1Tab2 (by decide) (by decide)
    (by decide)

/-! ## Session restoration lemmas -/

lemma create_some_fail (e : Editor) (s : SceneData)
    (h : s.id ∈ e.idPool.held) :
    e.CreateNewScene (some s) = (none, { e with conflicts := e.conflicts + 1 }) := by
  cases hgl : e.sceneTabs.getLast? <;>
    simp [Editor.CreateNewScene, hgl, IDPool.TakeID, h]

lemma create_some_ok (e : Editor) (s : SceneData)
    (h : s.id ∉ e.idPool.held) :
    (e.CreateNewScene (some s)).2.sceneTabs.map SceneTab.id =
      e.sceneTabs.map SceneTab.id ++ [s.id] ∧
    (e.CreateNewScene (some s)).2.sceneTabs.map SceneTab.title =
      e.sceneTabs.map SceneTab.title ++ [s.title] ∧
    (e.CreateNewScene (some s)).2.sceneTabs.map SceneTab.path =
      e.sceneTabs.map SceneTab.path ++ [s.path] ∧
    (e.CreateNewScene (some s)).2.idPool.held = s.id :: e.idPool.held ∧
    (e.CreateNewScene (some s)).2.conflicts = e.conflicts ∧
    (e.CreateNewScene (some s)).2.windowGeom = e.windowGeom ∧
    (e.CreateNewScene (some s)).2.activeTab = e.activeTab ∧
    (e.CreateNewScene (some s)).2.projectFilePath = e.projectFilePath := by
  cases hgl : e.sceneTabs.getLast? <;>
    simp [Editor.CreateNewScene, hgl, IDPool.TakeID, h]

lemma restore_fold_props :
    ∀ (scenes : List SceneData) (e : Editor),
    (scenes.map SceneData.id).Nodup →
    (∀ i ∈ scenes.map SceneData.id, i ∉ e.idPool.held) →
    (scenes.foldl (fun acc s => (acc.CreateNewScene (some s)).2)
        e).sceneTabs.map SceneTab.id =
      e.sceneTabs.map SceneTab.id ++ scenes.map SceneData.id ∧
    (scenes.foldl (fun acc s => (acc.CreateNewScene (some s)).2)
        e).sceneTabs.map SceneTab.title =
      e.sceneTabs.map SceneTab.title ++ scenes.map SceneData.title ∧
    (scenes.foldl (fun acc s => (acc.CreateNewScene (some s)).2)
        e).sceneTabs.map SceneTab.path =
      e.sceneTabs.map SceneTab.path ++ scenes.map SceneData.path ∧
    (∀ i : Nat, i ∈ (scenes.foldl (fun acc s => (acc.CreateNewScene (some s)).2)
        e).idPool.held ↔
      i ∈ e.idPool.held ∨ i ∈ scenes.map SceneData.id) ∧
    (scenes.foldl (fun acc s => (acc.CreateNewScene (some s)).2)
        e).conflicts = e.conflicts ∧
    (scenes.foldl (fun acc s => (acc.CreateNewScene (some s)).2)
        e).windowGeom = e.windowGeom := by
  intro scenes
  induction scenes with
  | nil =>
    intro e _ _
    simp
  | cons s rest ih =>
    intro e hnd hdisj
    rw [List.map_cons, List.nodup_cons] at hnd
    have hs : s.id ∉ e.idPool.held :=
      hdisj s.id (by simp)
    obtain ⟨hid, htitle, hpath, hheld, hconf, hgeom, _, _⟩ :=
      create_some_ok e s hs
    have hdisj2 : ∀ i ∈ rest.map SceneData.id,
        i ∉ (e.CreateNewScene (some s)).2.idPool.held := by
      intro i hi
      rw [hheld]
      intro hmem
      rcases List.mem_cons.mp hmem with heq | hmem2
      · exact hnd.1 (heq ▸ hi)
      · exact hdisj i (List.mem_cons_of_mem _ hi) hmem2
    obtain ⟨ih1, ih2, ih3, ih4, ih5, ih6⟩ :=
      ih (e.CreateNewScene (some s)).2 hnd.2 hdisj2
    refine ⟨?_, ?_, ?_, ?_, ?_, ?_⟩
    · rw [List.foldl_cons, ih1, hid, List.map_cons]
      simp
    · rw [List.foldl_cons, ih2, htitle, List.map_cons]
      simp
    · rw [List.foldl_cons, ih3, hpath, List.map_cons]
      simp
    · intro i
      rw [List.foldl_cons, ih4 i, hheld]
      simp only [List.mem_cons, List.map_cons]
      tauto
    · rw [List.foldl_cons, ih5, hconf]
    · rw [List.foldl_cons, ih6, hgeom]

lemma map_toSceneData_id (l : List SceneTab) :
    (l.map SceneTab.toSceneData).map SceneData.id = l.map SceneTab.id := by
  simp [List.map_map, Function.comp_def, SceneTab.toSceneData]

lemma map_toSceneData_title (l : List SceneTab) :
    (l.map SceneTab.toSceneData).map SceneData.title =
      l.map SceneTab.title := by
  simp [List.map_map, Function.comp_def, SceneTab.toSceneData]

lemma map_toSceneData_path (l : List SceneTab) :
    (l.map SceneTab.toSceneData).map SceneData.path = l.map SceneTab.path := by
  simp [List.map_map, Function.comp_def, SceneTab.toSceneData]

lemma nodup_uniqueTitle_of_id (l : List SceneTab)
    (h : (l.map SceneTab.id).Nodup) :
    (l.map SceneTab.uniqueTitle).Nodup := by
  have heq : l.map SceneTab.id = (l.map SceneTab.uniqueTitle).map Prod.snd := by
    simp [List.map_map, Function.comp_def, SceneTab.uniqueTitle]
  rw [heq] at h
  exact h.of_map _

/-! ## C3: save/load round trip -/

/-- C3: for every registry whose session identifiers are distinct (the
registry invariant) — display titles may repeat — saving to a non-empty
path leaves the state unchanged and produces the project document, and
loading that document reproduces an equivalent registry: same number of
sessions, same order, same identifiers, same titles and paths, with
distinct unique titles; the ephemeral render/active flags are the only
fields not carried over. -/
theorem c3_round_trip (e f : Editor) (fs : String → Option ProjectDoc)
    (savePath loadPath : String) (hsp : savePath ≠ "") (hlp : loadPath ≠ "")
    (hfs : fs loadPath = some e.projectDocOf)
    (hnd : (e.sceneTabs.map SceneTab.id).Nodup) :
    e.SaveProject savePath = (some e.projectDocOf, e) ∧
    (f.LoadProject fs loadPath).sceneTabs.map SceneTab.id =
      e.sceneTabs.map SceneTab.id ∧
    (f.LoadProject fs loadPath).sceneTabs.map SceneTab.title =
      e.sceneTabs.map SceneTab.title ∧
    (f.LoadProject fs loadPath).sceneTabs.map SceneTab.path =
      e.sceneTabs.map SceneTab.path ∧
    (f.LoadProject fs loadPath).sceneTabs.length = e.sceneTabs.length ∧
    ((f.LoadProject fs loadPath).sceneTabs.map SceneTab.id).Nodup ∧
    ((f.LoadProject fs loadPath).sceneTabs.map SceneTab.uniqueTitle).Nodup := by
  have hsave : e.SaveProject savePath = (some e.projectDocOf, e) := by
    rw [Editor.SaveProject, if_neg hsp]
  have hload : f.LoadProject fs loadPath = f.LoadProjectDoc e.projectDocOf := by
    rw [Editor.LoadProject, if_neg hlp, hfs]
  have hnd2 : (e.projectDocOf.scenes.map SceneData.id).Nodup := by
    rw [Editor.projectDocOf, map_toSceneData_id]
    exact hnd
  obtain ⟨hid, htitle, hpath, _, _, _⟩ :=
    restore_fold_props e.projectDocOf.scenes
      { f with idPool := f.idPool.Clear, windowGeom := e.projectDocOf.window, sceneTabs := [] }
      hnd2 (by intro i _ hmem; cases hmem)
  have hldc : f.LoadProjectDoc e.projectDocOf =
      e.projectDocOf.scenes.foldl (fun acc s => (acc.CreateNewScene (some s)).2)
        { f with idPool := f.idPool.Clear, windowGeom := e.projectDocOf.window, sceneTabs := [] } := rfl
  have hid2 : (f.LoadProject fs loadPath).sceneTabs.map SceneTab.id =
      e.sceneTabs.map SceneTab.id := by
    rw [hload, hldc, hid]
    simp [Editor.projectDocOf, map_toSceneData_id, SceneTab.toSceneData]
  have htitle2 : (f.LoadProject fs loadPath).sceneTabs.map SceneTab.title =
      e.sceneTabs.map SceneTab.title := by
    rw [hload, hldc, htitle]
    simp [Editor.projectDocOf, map_toSceneData_title, SceneTab.toSceneData]
  have hpath2 : (f.LoadProject fs loadPath).sceneTabs.map SceneTab.path =
      e.sceneTabs.map SceneTab.path := by
    rw [hload, hldc, hpath]
    simp [Editor.projectDocOf, map_toSceneData_path, SceneTab.toSceneData]
  have hnd3 : ((f.LoadProject fs loadPath).sceneTabs.map SceneTab.id).Nodup := by
    rw [hid2]; exact hnd
  refine ⟨hsave, hid2, htitle2, hpath2, ?_, hnd3,
    nodup_uniqueTitle_of_id _ hnd3⟩
  have := congrArg List.length hid2
  rwa [List.length_map, List.length_map] at this

/-- Witness for C3 on a registry with duplicate titles "Scene"/"Scene". -/
theorem c3_witness :
    c3Editor.SaveProject "Project.xml" = (some c3Editor.projectDocOf, c3Editor) ∧
    (Editor.init.LoadProject c3Fs "Project.xml").sceneTabs.map SceneTab.id =
      c3Editor.sceneTabs.map SceneTab.id ∧
    (Editor.init.LoadProject c3Fs "Project.xml").sceneTabs.map SceneTab.title =
      c3Editor.sceneTabs.map SceneTab.title ∧
    (Editor.init.LoadProject c3Fs "Project.xml").sceneTabs.map SceneTab.path =
      c3Editor.sceneTabs.map SceneTab.path ∧
    (Editor.init.LoadProject c3Fs "Project.xml").sceneTabs.length =
      c3Editor.sceneTabs.length ∧
    ((Editor.init.LoadProject c3Fs "Project.xml").sceneTabs.map
      SceneTab.id).Nodup ∧
    ((Editor.init.LoadProject c3Fs "Project.xml").sceneTabs.map
      SceneTab.uniqueTitle).Nodup :=
  c3_round_trip c3Editor Editor.init c3Fs "Project.xml" "Project.xml"
    (by decide) (by decide) (by decide) (by decide)

/-! ## C4: reservation conflict while loading -/

/-- C4: loading a document whose first two session blocks carry the same
persisted identifier restores only the first of them, counts exactly one
identity conflict, adds no session for the failed block, and continues
restoring the remaining blocks. -/
theorem c4_reservation_conflict (f : Editor) (w : Nat × Nat × Int × Int)
    (s1 s2 s3 : SceneData) (h12 : s2.id = s1.id) (h13 : s3.id ≠ s1.id) :
    (f.LoadProjectDoc ⟨w, [s1, s2, s3]⟩).sceneTabs.map SceneTab.id =
      [s1.id, s3.id] ∧
    (f.LoadProjectDoc ⟨w, [s1, s2, s3]⟩).sceneTabs.map SceneTab.title =
      [s1.title, s3.title] ∧
    (f.LoadProjectDoc ⟨w, [s1, s2, s3]⟩).sceneTabs.map SceneTab.path =
      [s1.path, s3.path] ∧
    (f.LoadProjectDoc ⟨w, [s1, s2, s3]⟩).sceneTabs.length = 2 ∧
    (f.LoadProjectDoc ⟨w, [s1, s2, s3]⟩).conflicts = f.conflicts + 1 := by
  have hbase : f.LoadProjectDoc ⟨w, [s1, s2, s3]⟩ =
      ((({ f with idPool := f.idPool.Clear, windowGeom := w, sceneTabs := [] }.CreateNewScene
        (some s1)).2.CreateNewScene (some s2)).2.CreateNewScene (some s3)).2 := by
    rw [Editor.LoadProjectDoc]
    rfl
  obtain ⟨o1id, o1title, o1path, o1held, o1conf, _, _, _⟩ :=
    create_some_ok
      { f with idPool := f.idPool.Clear, windowGeom := w, sceneTabs := [] }
      s1 (by intro h; cases h)
  have h2 : s2.id ∈
      ({ f with idPool := f.idPool.Clear, windowGeom := w, sceneTabs := [] }.CreateNewScene
        (some s1)).2.idPool.held := by
    rw [o1held, h12]
    exact List.mem_cons_self _ _
  have hfail := create_some_fail _ s2 h2
  have h3 : s3.id ∉
      (({ f with idPool := f.idPool.Clear, windowGeom := w, sceneTabs := [] }.CreateNewScene
        (some s1)).2.CreateNewScene (some s2)).2.idPool.held := by
    rw [hfail]
    show s3.id ∉
      ({ f with idPool := f.idPool.Clear, windowGeom := w, sceneTabs := [] }.CreateNewScene
        (some s1)).2.idPool.held
    rw [o1held]
    intro hmem
    rcases List.mem_cons.mp hmem with heq | hmem2
    · exact h13 heq
    · cases hmem2
  obtain ⟨o3id, o3title, o3path, _, o3conf, _, _, _⟩ :=
    create_some_ok _ s3 h3
  have htabs2 :
      (({ f with idPool := f.idPool.Clear, windowGeom := w, sceneTabs := [] }.CreateNewScene
        (some s1)).2.CreateNewScene (some s2)).2.sceneTabs =
      ({ f with idPool := f.idPool.Clear, windowGeom := w, sceneTabs := [] }.CreateNewScene
        (some s1)).2.sceneTabs := by
    rw [hfail]
  have hid : (f.LoadProjectDoc ⟨w, [s1, s2, s3]⟩).sceneTabs.map SceneTab.id =
      [s1.id, s3.id] := by
    rw [hbase, o3id, htabs2, o1id]
    rfl
  refine ⟨hid, ?_, ?_, ?_, ?_⟩
  · rw [hbase, o3title, htabs2, o1title]
    rfl
  · rw [hbase, o3path, htabs2, o1path]
    rfl
  · have := congrArg List.length hid
    rwa [List.length_map] at this
  · rw [hbase, o3conf, hfail]
    show (({ f with idPool := f.idPool.Clear, windowGeom := w, sceneTabs := [] }.CreateNewScene
        (some s1)).2.conflicts + 1) = f.conflicts + 1
    rw [o1conf]

/-- Witness for C4: two blocks with persisted identifier 7, a third with
identifier 9. -/
theorem c4_witness :
    (Editor.init.LoadProjectDoc
      ⟨(1920, 1080, 0, 0),
        [⟨7, "Scene", "A.xml"⟩, ⟨7, "Scene", "B.xml"⟩,
          ⟨9, "Scene", "C.xml"⟩]⟩).sceneTabs.map SceneTab.id = [7, 9] ∧
    (Editor.init.LoadProjectDoc
      ⟨(1920, 1080, 0, 0),
        [⟨7, "Scene", "A.xml"⟩, ⟨7, "Scene", "B.xml"⟩,
          ⟨9, "Scene", "C.xml"⟩]⟩).sceneTabs.length = 2 ∧
    (Editor.init.LoadProjectDoc
      ⟨(1920, 1080, 0, 0),
        [⟨7, "Scene", "A.xml"⟩, ⟨7, "Scene", "B.xml"⟩,
          ⟨9, "Scene", "C.xml"⟩]⟩).conflicts = Editor.init.conflicts + 1 := by
  obtain ⟨hid, _, _, hlen, hconf⟩ :=
    c4_reservation_conflict Editor.init (1920, 1080, 0, 0)
      ⟨7, "Scene", "A.xml"⟩ ⟨7, "Scene", "B.xml"⟩ ⟨9, "Scene", "C.xml"⟩
      (by decide) (by decide)
  exact ⟨hid, hlen, hconf⟩

/-! ## C9: startup front dereference -/

lemma create_tabs_len (e : Editor) (p : Option SceneData) :
    e.sceneTabs.length ≤ (e.CreateNewScene p).2.sceneTabs.length := by
  cases p with
  | none =>
    cases hgl : e.sceneTabs.getLast? <;>
      simp [Editor.CreateNewScene, hgl]
  | some s =>
    by_cases hmem : s.id ∈ e.idPool.held
    · rw [create_some_fail e s hmem]
    · cases hgl : e.sceneTabs.getLast? <;>
        simp [Editor.CreateNewScene, hgl, IDPool.TakeID, hmem]

lemma restore_tabs_len :
    ∀ (scenes : List SceneData) (e : Editor),
    e.sceneTabs.length ≤
      (scenes.foldl (fun acc s =>
        (acc.CreateNewScene (some s)).2) e).sceneTabs.length := by
  intro scenes
  induction scenes with
  | nil => intro e; exact Nat.le_refl _
  | cons s rest ih =>
    intro e
    rw [List.foldl_cons]
    exact Nat.le_trans (create_tabs_len e (some s))
      (ih (e.CreateNewScene (some s)).2)

/-- C9: the tail of `Editor::Start` dereferences the front of the session
list unconditionally after loading the default project, so it is in bounds
exactly when the default project file is present and restores at least one
session; with no project file the load is a no-op and the access hits the
front of an empty list (modelled as `none`). -/
theorem c9_start_front_precondition (fs : String → Option ProjectDoc)
    (e : Editor) (he : e.sceneTabs = []) :
    (Editor.Start fs e).isSome = true ↔
      ∃ d, fs defaultProjectPath = some d ∧ d.scenes ≠ [] := by
  have hne : defaultProjectPath ≠ "" := by decide
  cases hfs : fs defaultProjectPath with
  | none =>
    have hl : e.LoadProject fs defaultProjectPath = e := by
      rw [Editor.LoadProject, if_neg hne, hfs]
    constructor
    · intro hsome
      simp only [Editor.Start, hl, he] at hsome
      cases hsome
    · rintro ⟨d, hd, _⟩
      cases hd
  | some d =>
    have hl : e.LoadProject fs defaultProjectPath = e.LoadProjectDoc d := by
      rw [Editor.LoadProject, if_neg hne, hfs]
    cases hscenes : d.scenes with
    | nil =>
      have htabs : (e.LoadProject fs defaultProjectPath).sceneTabs = [] := by
        rw [hl, Editor.LoadProjectDoc, hscenes]
        rfl
      constructor
      · intro hsome
        simp only [Editor.Start, htabs] at hsome
        cases hsome
      · rintro ⟨d2, hd2, hne2⟩
        cases hd2
        exact absurd hscenes hne2
    | cons s rest =>
      have hfirst : s.id ∉
          ({ e with idPool := e.idPool.Clear, windowGeom := d.window, sceneTabs := [] } : Editor).idPool.held := by
        intro h
        cases h
      obtain ⟨hid1, _, _, _, _, _, _, _⟩ := create_some_ok _ s hfirst
      have hlen1 : 1 ≤
          (({ e with idPool := e.idPool.Clear, windowGeom := d.window, sceneTabs := [] } : Editor).CreateNewScene
            (some s)).2.sceneTabs.length := by
        have h2 := congrArg List.length hid1
        rw [List.length_map] at h2
        rw [h2]
        simp
      have hlen : 1 ≤
          (e.LoadProject fs defaultProjectPath).sceneTabs.length := by
        rw [hl, Editor.LoadProjectDoc, hscenes, List.foldl_cons]
        exact Nat.le_trans hlen1 (restore_tabs_len rest _)
      constructor
      · intro _
        exact ⟨d, rfl, by rw [hscenes]; exact List.cons_ne_nil s rest⟩
      · intro _
        cases hcons : (e.LoadProject fs defaultProjectPath).sceneTabs with
        | nil => rw [hcons] at hlen; cases hlen
        | cons t r =>
          simp only [Editor.Start, hcons]
          rfl

/-- Witness for C9: with no project file `Start` hits the front of an
empty list (the access is out of bounds, modelled `none`); with a
one-session project it is in bounds. -/
theorem c9_witness :
    (Editor.Start c9FsNone Editor.init).isSome = false ∧
    (Editor.Start c9FsOne Editor.init).isSome = true := by
  constructor
  · have h := c9_start_front_precondition c9FsNone Editor.init rfl
    cases hs : (Editor.Start c9FsNone Editor.init).isSome
    · rfl
    · obtain ⟨d, hd, _⟩ := h.mp hs
      cases hd
  · exact (c9_start_front_precondition c9FsOne Editor.init rfl).mpr
      ⟨⟨(1920, 1080, 0, 0), [⟨1, "Scene", "Scenes/A.xml"⟩]⟩, by decide,
        by decide⟩

/-! ## C6: toolbar/menu save action -/

lemma SaveProject_snd (e : Editor) (p : String) : (e.SaveProject p).2 = e := by
  rw [Editor.SaveProject]
  split <;> rfl

/-- Counterexample to C6 as stated: the toolbar save action fires with
session 1 active, yet the scene-save work is not delegated to the active
session alone — `SaveScene` runs on both sessions 1 and 2. -/
theorem c6_counterexample :
    (c6Editor.RenderMenuBar c6Fs c6Input).2.savedScenes ≠ [1] ∧
    (c6Editor.RenderMenuBar c6Fs c6Input).2.savedScenes = [1, 2] := by
  constructor
  · decide
  · decide

/-- C6 as amended: when the save action fires (here via the Save Project
menu item; the open and new-scene items idle), the project file is written
and `SaveScene` runs on every session of the registry — all sessions, not
only the active one. -/
theorem c6_save_all_scenes (e : Editor) (fs : String → Option ProjectDoc)
    (inp : MenuInput) (hopen : inp.openClicked = false)
    (hnew : inp.newSceneClicked = false) (hsave : inp.saveClicked = true) :
    (e.RenderMenuBar fs inp).2.savedScenes = e.sceneTabs.map SceneTab.id := by
  cases hsa : inp.saveAsClicked
  · simp only [Editor.RenderMenuBar, hopen, hnew, hsave, hsa,
      Bool.false_eq_true, if_false, if_true, Bool.true_or]
    split <;> simp [SaveProject_snd]
  · simp only [Editor.RenderMenuBar, hopen, hnew, hsave, hsa,
      Bool.false_eq_true, if_false, if_true, Bool.true_or]
    simp [SaveProject_snd]

/-- Witness for the amended C6: the menu save action saves the scenes of
both registered sessions. -/
theorem c6_witness :
    (c6Editor.RenderMenuBar c6Fs c6wInput).2.savedScenes =
      c6Editor.sceneTabs.map SceneTab.id :=
  c6_save_all_scenes c6Editor c6Fs c6wInput rfl rfl rfl

/-! ## C2: identifier uniqueness -/

lemma create_none_proj (e : Editor) :
    (e.CreateNewScene none).2.sceneTabs.map SceneTab.id =
      e.sceneTabs.map SceneTab.id ++ [e.idPool.NewID.1] ∧
    (e.CreateNewScene none).2.idPool.held = e.idPool.NewID.2.held := by
  cases hgl : e.sceneTabs.getLast? <;>
    simp [Editor.CreateNewScene, hgl]

lemma inv_snoc (e e2 : Editor) (i : Nat)
    (hids : e2.sceneTabs.map SceneTab.id = e.sceneTabs.map SceneTab.id ++ [i])
    (hheld : e2.idPool.held = i :: e.idPool.held)
    (hfresh : i ∉ e.idPool.held)
    (h : EditorInv e) : EditorInv e2 := by
  obtain ⟨h1, h2, h3⟩ := h
  refine ⟨?_, ?_, ?_⟩
  · rw [hids, List.nodup_append]
    refine ⟨h1, List.nodup_singleton i, ?_⟩
    intro x hx hx2
    rw [List.mem_singleton] at hx2
    subst hx2
    exact hfresh (h3 x hx)
  · rw [hheld]
    exact List.nodup_cons.mpr ⟨hfresh, h2⟩
  · intro j hj
    rw [hids] at hj
    rw [hheld]
    rcases List.mem_append.mp hj with hj | hj
    · exact List.mem_cons_of_mem _ (h3 j hj)
    · rw [List.mem_singleton] at hj
      subst hj
      exact List.mem_cons_self _ _

lemma inv_create (e : Editor) (p : Option SceneData) (h : EditorInv e) :
    EditorInv (e.CreateNewScene p).2 := by
  cases p with
  | none =>
    obtain ⟨hids, hheld⟩ := create_none_proj e
    exact inv_snoc e _ _ hids (by rw [hheld, IDPool.NewID_held])
      e.idPool.NewID_fresh h
  | some s =>
    by_cases hmem : s.id ∈ e.idPool.held
    · rw [create_some_fail e s hmem]
      exact h
    · obtain ⟨hids, _, _, hheld, _, _, _, _⟩ := create_some_ok e s hmem
      exact inv_snoc e _ s.id hids hheld hmem h

lemma filterMap_upd_ids_sublist (host : Nat → FrameInput) :
    ∀ tabs : List SceneTab,
    ((tabs.filterMap (fun s =>
        if (host s.id).stayOpen then some (updateFlags host s)
        else none)).map SceneTab.id).Sublist (tabs.map SceneTab.id) := by
  intro tabs
  induction tabs with
  | nil => simp
  | cons t rest ih =>
    rw [List.filterMap_cons]
    cases hso : (host t.id).stayOpen
    · simp only [Bool.false_eq_true, if_false, List.map_cons]
      exact ih.cons t.id
    · simp only [if_true, List.map_cons, updateFlags_id]
      exact ih.cons₂ t.id

lemma inv_runFrame (e : Editor) (host : Nat → FrameInput)
    (h : EditorInv e) : EditorInv (e.runFrame host) := by
  obtain ⟨h1, h2, h3⟩ := h
  refine ⟨?_, ?_, ?_⟩
  · show ((runFrameLoop host e.sceneTabs false e.activeTab
      e.idPool).1.map SceneTab.id).Nodup
    rw [runFrameLoop_tabs]
    exact (filterMap_upd_ids_sublist host e.sceneTabs).nodup h1
  · exact runFrameLoop_held_nodup host e.sceneTabs false e.activeTab
      e.idPool h2
  · intro i hi
    have hi2 : i ∈ (e.sceneTabs.filterMap (fun s =>
        if (host s.id).stayOpen then some (updateFlags host s)
        else none)).map SceneTab.id := by
      have htabs : (e.runFrame host).sceneTabs =
          e.sceneTabs.filterMap (fun s =>
            if (host s.id).stayOpen then some (updateFlags host s)
            else none) :=
        runFrameLoop_tabs host e.sceneTabs false e.activeTab e.idPool
      rwa [htabs] at hi
    rw [List.mem_map] at hi2
    obtain ⟨s, hs, hsid⟩ := hi2
    rw [List.mem_filterMap] at hs
    obtain ⟨u, hu, hif⟩ := hs
    by_cases huo : (host u.id).stayOpen = true
    · rw [if_pos huo] at hif
      have hui : u.id = i := by
        rw [← Option.some_inj.mp hif, updateFlags_id] at hsid
        exact hsid
      show i ∈ (runFrameLoop host e.sceneTabs false e.activeTab
        e.idPool).2.2.held
      rw [runFrameLoop_held_mem host e.sceneTabs false e.activeTab
        e.idPool h2 i]
      refine ⟨h3 i (hui ▸ List.mem_map_of_mem SceneTab.id hu), ?_⟩
      intro v hv hvc hvi
      rw [hvi, ← hui] at hvc
      rw [huo] at hvc
      cases hvc
    · rw [if_neg huo] at hif
      cases hif

lemma inv_restore :
    ∀ (scenes : List SceneData) (e : Editor), EditorInv e →
    EditorInv (scenes.foldl (fun acc s => (acc.CreateNewScene (some s)).2) e) := by
  intro scenes
  induction scenes with
  | nil => intro e h; exact h
  | cons s rest ih =>
    intro e h
    rw [List.foldl_cons]
    exact ih _ (inv_create e (some s) h)

lemma inv_loadDoc (e : Editor) (d : ProjectDoc) :
    EditorInv (e.LoadProjectDoc d) := by
  rw [Editor.LoadProjectDoc]
  apply inv_restore
  exact ⟨List.nodup_nil, List.nodup_nil, by intro i hi; cases hi⟩

lemma inv_load (e : Editor) (fs : String → Option ProjectDoc)
    (path : String) (h : EditorInv e) :
    EditorInv (e.LoadProject fs path) := by
  rw [Editor.LoadProject]
  split
  · exact h
  · cases hfs : fs path
    · exact h
    · exact inv_loadDoc e _

lemma create_none_eq (e : Editor) :
    ∃ tab : SceneTab, tab.id = e.idPool.NewID.1 ∧
      e.CreateNewScene none =
        (some tab, { e with idPool := e.idPool.NewID.2, sceneTabs := e.sceneTabs ++ [tab] }) := by
  cases hgl : e.sceneTabs.getLast? with
  | none =>
    refine ⟨{ id := e.idPool.NewID.1, title := "Scene", path := "", isActive := false, isRendered := false, placeAfter := none, placePosition := DockSlot.right }, rfl, ?_⟩
    simp [Editor.CreateNewScene, hgl]
  | some b =>
    refine ⟨{ id := e.idPool.NewID.1, title := "Scene", path := "", isActive := false, isRendered := false, placeAfter := some b.uniqueTitle, placePosition := DockSlot.tab }, rfl, ?_⟩
    simp [Editor.CreateNewScene, hgl]

lemma inv_browser (e : Editor) (p : String) (h : EditorInv e) :
    EditorInv (e.browserOpenScene p) := by
  obtain ⟨tab, htid, heq⟩ := create_none_eq e
  rw [Editor.browserOpenScene, heq]
  show EditorInv
    { e with idPool := e.idPool.NewID.2, sceneTabs := (e.sceneTabs ++ [tab]).dropLast ++ [{ tab with path := p }] }
  apply inv_snoc e _ e.idPool.NewID.1 ?_ ?_ e.idPool.NewID_fresh h
  · show ((e.sceneTabs ++ [tab]).dropLast ++
      [{ tab with path := p }]).map SceneTab.id =
      e.sceneTabs.map SceneTab.id ++ [e.idPool.NewID.1]
    rw [List.dropLast_concat, List.map_append]
    have : ({ tab with path := p } : SceneTab).id = e.idPool.NewID.1 := htid
    rw [List.map_singleton, this]
  · show e.idPool.NewID.2.held = e.idPool.NewID.1 :: e.idPool.held
    exact e.idPool.NewID_held

lemma inv_menubar (e : Editor) (fs : String → Option ProjectDoc)
    (inp : MenuInput) (h : EditorInv e) :
    EditorInv (e.RenderMenuBar fs inp).1 := by
  cases hsa : inp.saveAsClicked <;>
    cases hop : inp.openClicked <;>
      cases hnw : inp.newSceneClicked <;>
        (simp only [Editor.RenderMenuBar, hsa, hop, hnw, Bool.false_eq_true,
          Bool.true_eq_false, if_true, if_false, Bool.false_or, Bool.true_or,
          Bool.or_false, Bool.or_true] <;>
         (try split) <;>
         (try dsimp only) <;>
         (try rw [SaveProject_snd]) <;>
         (try split) <;>
         first
           | exact h
           | exact inv_load _ fs inp.openDialogPath h
           | exact inv_create _ none h
           | exact inv_create _ none (inv_load _ fs inp.openDialogPath h))

lemma inv_onUpdate (e : Editor) (fs : String → Option ProjectDoc)
    (inp : MenuInput) (host : Nat → FrameInput) (sel : Option String)
    (h : EditorInv e) : EditorInv (e.OnUpdate fs inp host sel) := by
  simp only [Editor.OnUpdate]
  cases sel with
  | none => exact inv_runFrame _ host (inv_menubar e fs inp h)
  | some p => exact inv_browser _ p (inv_runFrame _ host (inv_menubar e fs inp h))

lemma inv_applyOp (e : Editor) (op : EditorOp) (h : EditorInv e) :
    EditorInv (applyEditorOp e op) := by
  cases op with
  | create p => exact inv_create e p h
  | frame fs inp host sel => exact inv_onUpdate e fs inp host sel h
  | loadOp fs path => exact inv_load e fs path h
  | saveOp path =>
    show EditorInv (e.SaveProject path).2
    rw [SaveProject_snd]
    exact h

lemma inv_foldOps :
    ∀ (ops : List EditorOp) (e : Editor), EditorInv e →
    EditorInv (ops.foldl applyEditorOp e) := by
  intro ops
  induction ops with
  | nil => intro e h; exact h
  | cons op rest ih =>
    intro e h
    rw [List.foldl_cons]
    exact ih _ (inv_applyOp e op h)

/-- C2: for every sequence of allocate, reclaim and reserve calls on the
identifier pool no two simultaneously held identifiers are equal, and for
every sequence of editor operations (session creation, UI frames, project
loads and saves) from the initial state no two live sessions share an
identifier. -/
theorem c2_identifier_uniqueness :
    (∀ ops : List PoolOp, (applyPoolOps ops).held.Nodup) ∧
    (∀ ops : List EditorOp,
      ((runEditorOps ops).sceneTabs.map SceneTab.id).Nodup) := by
  constructor
  · intro ops
    exact applyPoolOps_go_nodup ops ⟨[]⟩ List.nodup_nil
  · intro ops
    have h : EditorInv (runEditorOps ops) :=
      inv_foldOps ops Editor.init
        ⟨List.nodup_nil, List.nodup_nil, by intro i hi; cases hi⟩
    exact h.1
